import Mathlib

/-!
Verification of the provisioning tool in `setup.go` (windows-dev-setup).

The development shallowly embeds the parts of `setup.go` the specification
talks about:

* a filesystem model (`FileSys`): an association list from paths to file
  entries (content plus modification time), together with a deterministic
  I/O fault oracle (`hashFail` — paths at which the hashing read of
  `fileHash` errors, `readFail` — paths at which `os.Open` inside
  `copyFile` errors, `createFail` — paths at which `os.Create` errors,
  `mkdirFail` — directories at which `os.MkdirAll` errors);
* `fileHash`, `copyFile` and `deployConfigFile` translated branch by
  branch from `setup.go` (the SHA-256 function itself is abstracted as a
  parameter `hf : String → String` applied to file contents);
* the two package installers `installWingetPackage` and
  `installScoopPackage` over an abstract command runner, recording the
  exact commands they invoke;
* `main`'s preflight checks, exit codes, and its fixed 13-step pipeline
  followed by the config-deploy and git-config sections (`mainRun`);
* the pure helper `extractVersion`.

Read faults are surfaced at `os.Open` time, so a failed `copyFile` leaves
the destination untouched, matching the order of operations in the Go
code. Directories are not modelled as filesystem objects; `MkdirAll`
success/failure is decided by the `mkdirFail` oracle.
-/

/-- A file's observable state: its content (a `String` standing for the
byte sequence) and its modification time. -/
structure FileEntry where
  content : String
  mtime : Nat
deriving DecidableEq

/-- Filesystem state plus a deterministic I/O fault oracle. -/
structure FileSys where
  files : List (String × FileEntry)
  hashFail : List String
  readFail : List String
  createFail : List String
  mkdirFail : List String
deriving DecidableEq

/-- Association-list lookup of a path. -/
def findFile : List (String × FileEntry) → String → Option FileEntry
  | [], _ => none
  | (q, f) :: rest, p => if p = q then some f else findFile rest p

/-- Replace in place, or append: the effect of `os.Create` + write. -/
def putFile : List (String × FileEntry) → String → FileEntry → List (String × FileEntry)
  | [], p, f => [(p, f)]
  | (q, g) :: rest, p, f => if p = q then (p, f) :: rest else (q, g) :: putFile rest p f

def FileSys.lookupFile (fs : FileSys) (p : String) : Option FileEntry :=
  findFile fs.files p

def FileSys.setFile (fs : FileSys) (p : String) (c : String) (n : Nat) : FileSys :=
  { fs with files := putFile fs.files p ⟨c, n⟩ }

/-- `os.Stat` succeeding: the file is present. -/
def fileExists (fs : FileSys) (p : String) : Bool :=
  (fs.lookupFile p).isSome

/-- `filepath.Join` of two components (Windows separator). -/
def pathJoin (a b : String) : String := a ++ "\\" ++ b

/-- `filepath.Dir`: everything before the last separator, else `"."`. -/
def pathDir (p : String) : String :=
  match p.data.reverse.dropWhile (fun c => c != '\\') with
  | [] => "."
  | _ :: rest => String.mk rest.reverse

/-- `fileHash` from setup.go: open the file and hash its contents with
SHA-256. Returns `none` when the file is absent or the hashing read
faults; the hash function itself is the parameter `hf`. -/
def fileHash (hf : String → String) (fs : FileSys) (p : String) : Option String :=
  match fs.lookupFile p with
  | none => none
  | some f => if p ∈ fs.hashFail then none else some (hf f.content)

/-- The fingerprint of the content currently stored at `p` (the
mathematical SHA-256 of the bytes, independent of read faults). -/
def contentHash (hf : String → String) (fs : FileSys) (p : String) : Option String :=
  (fs.lookupFile p).map (fun f => hf f.content)

/-- `copyFile` from setup.go: `os.Open` the source (fails when absent or
read-faulted), `os.Create` the destination (fails when create-faulted),
then copy the bytes. Returns the new filesystem and whether it
succeeded; on failure the destination is untouched. -/
def copyFile (fs : FileSys) (src dst : String) (now : Nat) : FileSys × Bool :=
  match fs.lookupFile src with
  | none => (fs, false)
  | some f =>
    if src ∈ fs.readFail then (fs, false)
    else if dst ∈ fs.createFail then (fs, false)
    else (fs.setFile dst f.content now, true)

/-- The possible results of one `deployConfigFile` call. -/
inductive DeployOutcome where
  | sourceMissing
  | mkdirFailed
  | upToDate
  | deployed
  | deployFailed
deriving DecidableEq

/-- Result of `deployConfigFile`: the filesystem afterwards, the reported
outcome, the messages appended to the global failure log, and whether
the backup copy was made (i.e. the `copyFile(target, backupPath)` call
succeeded). -/
structure DeployResult where
  fs : FileSys
  outcome : DeployOutcome
  failLog : List String
  backupMade : Bool
deriving DecidableEq

/-- `deployConfigFile` from setup.go lines 159-192, branch by branch.
`ts` is the `time.Now().Format("20060102-150405")` timestamp string and
`now` the write time recorded on copied files. Note that the result of
the backup `copyFile` is discarded by the Go code (its error is
ignored); here it is retained only as the `backupMade` observation. -/
def deployConfigFile (hf : String → String) (ts : String) (now : Nat)
    (root srcRel target : String) (fs : FileSys) : DeployResult :=
  let sourcePath := pathJoin root srcRel
  if fileExists fs sourcePath = false then
    ⟨fs, .sourceMissing, ["Source config not found: " ++ srcRel], false⟩
  else if pathDir target ∈ fs.mkdirFail then
    ⟨fs, .mkdirFailed, ["Failed to create directory: " ++ pathDir target], false⟩
  else if fileExists fs target then
    let srcHash := fileHash hf fs sourcePath
    let tgtHash := fileHash hf fs target
    if srcHash.isSome ∧ tgtHash.isSome ∧ srcHash = tgtHash then
      ⟨fs, .upToDate, [], false⟩
    else
      let bres := copyFile fs target (target ++ ".bak." ++ ts) now
      let cres := copyFile bres.1 sourcePath target now
      if cres.2 then
        ⟨cres.1, .deployed, [], bres.2⟩
      else
        ⟨cres.1, .deployFailed, ["Failed to deploy " ++ srcRel], bres.2⟩
  else
    let cres := copyFile fs sourcePath target now
    if cres.2 then
      ⟨cres.1, .deployed, [], false⟩
    else
      ⟨cres.1, .deployFailed, ["Failed to deploy " ++ srcRel], false⟩

/-- Rune test `c >= '0' && c <= '9'` from `extractVersion`. -/
def isDigitC (c : Char) : Bool := decide ('0' ≤ c) && decide (c ≤ '9')

/-- A digit or a dot: the characters `extractVersion` keeps once started. -/
def isVerC (c : Char) : Bool := isDigitC c || c = '.'

/-- The loop of `extractVersion` (setup.go lines 518-535). The Go loop
tracks the byte index `start` of the first digit and returns the slice
`s[start:i]`; here the slice-in-progress is carried as the reversed
accumulator of a `some` state, which is `none` while `start == -1`. -/
def evGo (s : String) : List Char → Option (List Char) → String
  | [], none => s
  | [], some acc => String.mk acc.reverse
  | c :: rest, none =>
    if isDigitC c then evGo s rest (some [c])
    else evGo s rest none
  | c :: rest, some acc =>
    if isDigitC c then evGo s rest (some (c :: acc))
    else if c = '.' then evGo s rest (some (c :: acc))
    else String.mk acc.reverse

/-- `extractVersion` from setup.go: first run of digits-and-dots starting
at the first digit, or the input unchanged when it has no digit. -/
def extractVersion (s : String) : String :=
  evGo s s.data none

/-- The specification's wording of version extraction: drop everything
before the first digit, then take the maximal run of digits-and-dots;
if there is no digit, return the input unchanged. -/
def firstVersionRun (s : String) : String :=
  match s.data.dropWhile (fun c => !isDigitC c) with
  | [] => s
  | c :: r => String.mk ((c :: r).takeWhile isVerC)

/-- Byte-prefix test used to implement `strings.Contains`. -/
def isPrefixB : List Char → List Char → Bool
  | [], _ => true
  | _ :: _, [] => false
  | a :: as, b :: bs => a = b && isPrefixB as bs

/-- Substring occurrence of `needle` somewhere in the second list. -/
def occursIn (needle : List Char) : List Char → Bool
  | [] => needle.isEmpty
  | c :: rest => isPrefixB needle (c :: rest) || occursIn needle rest

/-- `strings.Contains(s, sub)` from the Go standard library. -/
def strContains (s sub : String) : Bool :=
  occursIn sub.data s.data

/-- An external command: program name and argument list. -/
structure Cmd where
  name : String
  args : List String
deriving DecidableEq

/-- `winget list --id <pid> --accept-source-agreements`. -/
def wingetListCmd (pid : String) : Cmd :=
  ⟨"winget", ["list", "--id", pid, "--accept-source-agreements"]⟩

/-- `winget install --id <pid> --exact ... --silent`. -/
def wingetInstallCmd (pid : String) : Cmd :=
  ⟨"winget", ["install", "--id", pid, "--exact", "--accept-source-agreements",
    "--accept-package-agreements", "--silent"]⟩

/-- `scoop list`. -/
def scoopListCmd : Cmd := ⟨"scoop", ["list"]⟩

/-- `scoop bucket list`. -/
def scoopBucketListCmd : Cmd := ⟨"scoop", ["bucket", "list"]⟩

/-- `scoop bucket add <bucket>`. -/
def scoopBucketAddCmd (bucket : String) : Cmd := ⟨"scoop", ["bucket", "add", bucket]⟩

/-- `scoop install <pkg>`. -/
def scoopInstallCmd (pkg : String) : Cmd := ⟨"scoop", ["install", pkg]⟩

/-- The `refreshPath` powershell invocation (the exact script text,
which re-reads the persisted Path variables, is abbreviated). -/
def refreshPathCmd : Cmd :=
  ⟨"powershell", ["-NoProfile", "-Command", "GetEnvironmentVariable Path Machine User"]⟩

/-- The Scoop bootstrap powershell invocation from step 1 of `main`. -/
def scoopBootstrapCmd : Cmd :=
  ⟨"powershell", ["-NoProfile", "-Command", "Invoke-RestMethod get.scoop.sh | Invoke-Expression"]⟩

/-- How a package install ended. -/
inductive InstallOutcome where
  | skipped
  | installed
  | failed
deriving DecidableEq

/-- Result of one installer call: the reported outcome, the messages
appended to the failure log, and every external command invoked, in
order. -/
structure InstallResult where
  outcome : InstallOutcome
  fails : List String
  cmds : List Cmd
deriving DecidableEq

/-- `installWingetPackage` from setup.go lines 100-117 over an abstract
command runner: `run` is `runCmd` (captured output, success flag) and
`runPass` is `runCmdPassthrough` (success flag only). -/
def installWingetPackage (run : Cmd → String × Bool) (runPass : Cmd → Bool)
    (pid dn : String) : InstallResult :=
  let listC := wingetListCmd pid
  if strContains (run listC).1 pid then
    ⟨.skipped, [], [listC]⟩
  else
    let instC := wingetInstallCmd pid
    if runPass instC then
      ⟨.installed, [], [listC, instC, refreshPathCmd]⟩
    else
      ⟨.failed, ["Failed to install " ++ dn ++ " (" ++ pid ++ ")"], [listC, instC]⟩

/-- `installScoopPackage` from setup.go lines 119-143: listing check,
optional bucket registration (its failure ignored), then install. -/
def installScoopPackage (run : Cmd → String × Bool) (runPass : Cmd → Bool)
    (pkg bucket : String) : InstallResult :=
  if strContains (run scoopListCmd).1 pkg then
    ⟨.skipped, [], [scoopListCmd]⟩
  else
    let bucketCmds :=
      if bucket = "" then []
      else if strContains (run scoopBucketListCmd).1 bucket then [scoopBucketListCmd]
      else [scoopBucketListCmd, scoopBucketAddCmd bucket]
    let instC := scoopInstallCmd pkg
    if runPass instC then
      ⟨.installed, [], [scoopListCmd] ++ bucketCmds ++ [instC, refreshPathCmd]⟩
    else
      ⟨.failed, ["Failed to install " ++ pkg ++ " via scoop"],
        [scoopListCmd] ++ bucketCmds ++ [instC]⟩

/-- The abstract execution environment a run of `main` observes:
preflight conditions, tool resolvability (`commandExists`, abstracted as
stable across the run), the command runners, the filesystem, the
environment directories, and the timestamp inputs. -/
structure GoEnv where
  exePathOk : Bool
  networkOk : Bool
  cmdExists : String → Bool
  run : Cmd → String × Bool
  runPass : Cmd → Bool
  fs : FileSys
  localAppData : String
  userProfile : String
  appData : String
  scriptRoot : String
  ts : String
  now : Nat
  hash : String → String

/-- Mutable state threaded through `main` after preflight: the
filesystem, the global `failures` slice, and the step numbers executed
so far (in order). -/
structure World where
  fs : FileSys
  failures : List String
  trace : List Nat
deriving DecidableEq

/-- Run one pipeline step: its body acts on the filesystem and yields the
failure messages it `writeFail`s, which are appended to the global log;
the step number is appended to the trace. -/
def runStep (n : Nat) (body : FileSys → FileSys × List String) (w : World) : World :=
  ⟨(body w.fs).1, w.failures ++ (body w.fs).2, w.trace ++ [n]⟩

/-- Step 1 (Scoop bootstrap), setup.go lines 270-285. -/
def stepScoopBody (env : GoEnv) (fs : FileSys) : FileSys × List String :=
  if env.cmdExists "scoop" then (fs, [])
  else if env.runPass scoopBootstrapCmd then (fs, [])
  else (fs, ["Failed to install Scoop"])

/-- A winget-backed step: only the installer's failure messages reach the
global log. (The git identity prompt after step 2 appends no failures
and is omitted.) -/
def stepWingetBody (env : GoEnv) (pid dn : String) (fs : FileSys) : FileSys × List String :=
  (fs, (installWingetPackage env.run env.runPass pid dn).fails)

/-- Step 3 (JetBrainsMono via scoop). -/
def stepScoopPkgBody (env : GoEnv) (pkg bucket : String) (fs : FileSys) : FileSys × List String :=
  (fs, (installScoopPackage env.run env.runPass pkg bucket).fails)

/-- Step 8 (Node.js via Volta), setup.go lines 341-359. -/
def stepNodeBody (env : GoEnv) (fs : FileSys) : FileSys × List String :=
  if env.cmdExists "node" then (fs, [])
  else if env.cmdExists "volta" then
    if env.runPass ⟨"volta", ["install", "node"]⟩ then (fs, [])
    else (fs, ["Failed to install Node.js via Volta"])
  else (fs, ["Volta not found - cannot install Node.js"])

/-- Step 13 (LazyVim starter), setup.go lines 378-408. The directory
rename/backup and `.git` removal act on directories, which are not
modelled; only the failure messages and control flow are. -/
def stepLazyVimBody (env : GoEnv) (fs : FileSys) : FileSys × List String :=
  let marker := pathJoin (pathJoin (pathJoin (pathJoin env.localAppData "nvim") "lua") "config") "lazy.lua"
  if fileExists fs marker then (fs, [])
  else if env.cmdExists "git" then
    if env.runPass ⟨"git", ["clone", "https://github.com/LazyVim/starter",
        pathJoin env.localAppData "nvim"]⟩ then (fs, [])
    else (fs, ["Failed to clone LazyVim starter"])
  else (fs, ["Git not found - cannot clone LazyVim starter"])

/-- The config-deploy section of `main` (setup.go lines 410-431): four
`deployConfigFile` calls threaded through the filesystem. -/
def stepDeployBody (env : GoEnv) (fs : FileSys) : FileSys × List String :=
  let d1 := deployConfigFile env.hash env.ts env.now env.scriptRoot
    (pathJoin (pathJoin "configs" "wezterm") ".wezterm.lua")
    (pathJoin env.userProfile ".wezterm.lua") fs
  let d2 := deployConfigFile env.hash env.ts env.now env.scriptRoot
    (pathJoin (pathJoin "configs" "nushell") "config.nu")
    (pathJoin (pathJoin env.appData "nushell") "config.nu") d1.fs
  let d3 := deployConfigFile env.hash env.ts env.now env.scriptRoot
    (pathJoin (pathJoin "configs" "nushell") "env.nu")
    (pathJoin (pathJoin env.appData "nushell") "env.nu") d2.fs
  let d4 := deployConfigFile env.hash env.ts env.now env.scriptRoot
    (pathJoin (pathJoin "configs" "starship") "starship.toml")
    (pathJoin (pathJoin env.userProfile ".config") "starship.toml") d3.fs
  (d4.fs, d1.failLog ++ d2.failLog ++ d3.failLog ++ d4.failLog)

/-- The git-config section (setup.go lines 433-445): the six
`setGitConfigIfMissing` calls never fail; only a missing git does. -/
def stepGitConfigBody (env : GoEnv) (fs : FileSys) : FileSys × List String :=
  if env.cmdExists "git" then (fs, [])
  else (fs, ["Git not found - skipping git config"])

/-- The whole post-preflight body of `main`, in declared order: the 13
numbered steps, then the deploy section (14) and the git-config section
(15). The verification report that follows appends no failures and is
purely observational. -/
def pipeline (env : GoEnv) (w : World) : World :=
  runStep 15 (stepGitConfigBody env) <|
  runStep 14 (stepDeployBody env) <|
  runStep 13 (stepLazyVimBody env) <|
  runStep 12 (stepWingetBody env "Neovim.Neovim" "Neovim") <|
  runStep 11 (stepWingetBody env "wez.wezterm" "WezTerm") <|
  runStep 10 (stepWingetBody env "Starship.Starship" "Starship") <|
  runStep 9 (stepWingetBody env "Nushell.Nushell" "Nushell") <|
  runStep 8 (stepNodeBody env) <|
  runStep 7 (stepWingetBody env "Volta.Volta" "Volta") <|
  runStep 6 (stepWingetBody env "sharkdp.fd" "fd") <|
  runStep 5 (stepWingetBody env "BurntSushi.ripgrep.MSVC" "ripgrep") <|
  runStep 4 (stepWingetBody env "zig.zig" "Zig") <|
  runStep 3 (stepScoopPkgBody env "JetBrainsMono-NF" "nerd-fonts") <|
  runStep 2 (stepWingetBody env "Git.Git" "Git") <|
  runStep 1 (stepScoopBody env) w

/-- `main` (setup.go lines 231-515): the three `os.Exit(1)` sites —
`os.Executable` failing (line 238), winget unresolvable (line 256), the
connectivity probe failing (line 265) — then the pipeline, the summary,
and an implicit exit code 0 when `main` returns. The first component is
the process exit code. -/
def mainRun (env : GoEnv) : Nat × World :=
  if env.exePathOk = false then (1, ⟨env.fs, [], []⟩)
  else if env.cmdExists "winget" = false then (1, ⟨env.fs, [], []⟩)
  else if env.networkOk = false then (1, ⟨env.fs, [], []⟩)
  else (0, pipeline env ⟨env.fs, [], []⟩)

/-! ### Association-list and copy lemmas -/

theorem findFile_put_self (l : List (String × FileEntry)) (p : String) (f : FileEntry) :
    findFile (putFile l p f) p = some f := by
  induction l with
  | nil => simp [putFile, findFile]
  | cons hd rest ih =>
    obtain ⟨q, g⟩ := hd
    by_cases h : p = q
    · simp [putFile, findFile, h]
    · simp [putFile, findFile, h, ih]

theorem findFile_put_other (l : List (String × FileEntry)) (p q : String) (f : FileEntry)
    (h : q ≠ p) : findFile (putFile l p f) q = findFile l q := by
  induction l with
  | nil => simp [putFile, findFile, h]
  | cons hd rest ih =>
    obtain ⟨r, g⟩ := hd
    by_cases hp : p = r
    · subst hp
      simp [putFile, findFile, h]
    · by_cases hq : q = r
      · simp [putFile, findFile, hp, hq]
      · simp [putFile, findFile, hp, hq, ih]

theorem lookupFile_setFile_self (fs : FileSys) (p : String) (c : String) (n : Nat) :
    (fs.setFile p c n).lookupFile p = some ⟨c, n⟩ := by
  simp [FileSys.setFile, FileSys.lookupFile, findFile_put_self]

theorem lookupFile_setFile_other (fs : FileSys) (p q : String) (c : String) (n : Nat)
    (h : q ≠ p) : (fs.setFile p c n).lookupFile q = fs.lookupFile q := by
  simp [FileSys.setFile, FileSys.lookupFile, findFile_put_other _ _ _ _ h]

theorem fileExists_setFile (fs : FileSys) (p q : String) (c : String) (n : Nat)
    (h : fileExists fs q = true) : fileExists (fs.setFile p c n) q = true := by
  by_cases hq : q = p
  · subst hq
    simp [fileExists, lookupFile_setFile_self]
  · simpa [fileExists, lookupFile_setFile_other fs p q c n hq] using h

/-- Successful `copyFile` dissected: the source was present and readable,
the destination writable, and the result writes the source's content. -/
theorem copyFile_spec (fs : FileSys) (src dst : String) (now : Nat)
    (h : (copyFile fs src dst now).2 = true) :
    ∃ f, fs.lookupFile src = some f ∧ src ∉ fs.readFail ∧ dst ∉ fs.createFail ∧
      (copyFile fs src dst now).1 = fs.setFile dst f.content now := by
  unfold copyFile at h ⊢
  cases hl : fs.lookupFile src with
  | none => rw [hl] at h; simp at h
  | some f =>
    rw [hl] at h
    by_cases h1 : src ∈ fs.readFail
    · simp [h1] at h
    · by_cases h2 : dst ∈ fs.createFail
      · simp [h1, h2] at h
      · exact ⟨f, rfl, h1, h2, by simp [h1, h2]⟩

/-- `copyFile` succeeds when the source is present and readable and the
destination is writable. -/
theorem copyFile_succeeds (fs : FileSys) (src dst : String) (now : Nat) (f : FileEntry)
    (hl : fs.lookupFile src = some f) (h1 : src ∉ fs.readFail) (h2 : dst ∉ fs.createFail) :
    copyFile fs src dst now = (fs.setFile dst f.content now, true) := by
  unfold copyFile
  rw [hl]
  simp [h1, h2]

/-- A failed `copyFile` leaves the filesystem untouched. -/
theorem copyFile_fail_fst (fs : FileSys) (src dst : String) (now : Nat)
    (h : (copyFile fs src dst now).2 = false) : (copyFile fs src dst now).1 = fs := by
  unfold copyFile at h ⊢
  cases hl : fs.lookupFile src with
  | none => simp
  | some f =>
    rw [hl] at h
    by_cases h1 : src ∈ fs.readFail
    · simp [h1]
    · by_cases h2 : dst ∈ fs.createFail
      · simp [h1, h2]
      · simp [h1, h2] at h

/-- `setFile` never touches the fault oracle. -/
theorem setFile_oracle (fs : FileSys) (p : String) (c : String) (n : Nat) :
    (fs.setFile p c n).hashFail = fs.hashFail ∧ (fs.setFile p c n).readFail = fs.readFail ∧
    (fs.setFile p c n).createFail = fs.createFail ∧ (fs.setFile p c n).mkdirFail = fs.mkdirFail := by
  simp [FileSys.setFile]

/-! ### extractVersion: equivalence with the specification's wording -/

theorem evGo_some (s : String) (l : List Char) : ∀ acc : List Char,
    evGo s l (some acc) = String.mk (acc.reverse ++ l.takeWhile isVerC) := by
  induction l with
  | nil => intro acc; simp [evGo]
  | cons c rest ih =>
    intro acc
    by_cases hd : isDigitC c = true
    · have hv : isVerC c = true := by simp [isVerC, hd]
      rw [List.takeWhile_cons_of_pos hv]
      simp [evGo, hd, ih]
    · have hd' : isDigitC c = false := by simpa using hd
      by_cases hdot : c = '.'
      · have hv : isVerC c = true := by simp [isVerC, hdot]
        rw [List.takeWhile_cons_of_pos hv]
        simp [evGo, hd', hdot, ih]
      · have hv : ¬isVerC c = true := by simp [isVerC, hd', hdot]
        rw [List.takeWhile_cons_of_neg hv]
        simp [evGo, hd', hdot]

theorem evGo_none (s : String) (l : List Char) :
    evGo s l none =
      (match l.dropWhile (fun c => !isDigitC c) with
       | [] => s
       | c :: r => String.mk ((c :: r).takeWhile isVerC)) := by
  induction l with
  | nil => simp [evGo]
  | cons c rest ih =>
    rw [List.dropWhile_cons]
    by_cases hd : isDigitC c = true
    · have hv : isVerC c = true := by simp [isVerC, hd]
      simp [evGo, hd, evGo_some, List.takeWhile_cons, hv]
    · have hd' : isDigitC c = false := by simpa using hd
      simpa [evGo, hd'] using ih

theorem extractVersion_eq_firstVersionRun (s : String) :
    extractVersion s = firstVersionRun s := by
  rw [extractVersion, firstVersionRun, evGo_none]

/-- `copyFile` never touches the fault oracle. -/
theorem copyFile_oracle (fs : FileSys) (src dst : String) (now : Nat) :
    (copyFile fs src dst now).1.hashFail = fs.hashFail ∧
    (copyFile fs src dst now).1.readFail = fs.readFail ∧
    (copyFile fs src dst now).1.createFail = fs.createFail ∧
    (copyFile fs src dst now).1.mkdirFail = fs.mkdirFail := by
  unfold copyFile
  cases fs.lookupFile src with
  | none => simp
  | some f => split_ifs <;> simp [FileSys.setFile]

/-- After writing the source's content onto the target, target and source
carry the same fingerprint (also when the two paths coincide). -/
theorem contentHash_setFile_of_lookup (hf : String → String) (fs1 : FileSys)
    (sp tgt : String) (f : FileEntry) (now : Nat) (hlf : fs1.lookupFile sp = some f) :
    contentHash hf (fs1.setFile tgt f.content now) tgt
      = contentHash hf (fs1.setFile tgt f.content now) sp ∧
    (contentHash hf (fs1.setFile tgt f.content now) tgt).isSome = true := by
  by_cases h : sp = tgt
  · subst h
    simp [contentHash, lookupFile_setFile_self]
  · constructor
    · rw [contentHash, contentHash, lookupFile_setFile_self,
        lookupFile_setFile_other _ _ _ _ _ h, hlf]
      rfl
    · simp [contentHash, lookupFile_setFile_self]

/-- Dissection of a `deployConfigFile` call that reported Deployed: the
final write copied the content of the source as found in an intermediate
filesystem `fs1` (equal to `fs` except possibly for the backup file)
onto the target, nothing was appended to the failure log, and the
directory creation had succeeded. -/
theorem deploy_deployed_shape (hf : String → String) (ts : String) (now : Nat)
    (root srcRel target : String) (fs : FileSys)
    (hd : (deployConfigFile hf ts now root srcRel target fs).outcome = DeployOutcome.deployed) :
    ∃ (fs1 : FileSys) (f : FileEntry), fs1.lookupFile (pathJoin root srcRel) = some f ∧
      fs1.hashFail = fs.hashFail ∧ fs1.readFail = fs.readFail ∧
      fs1.createFail = fs.createFail ∧ fs1.mkdirFail = fs.mkdirFail ∧
      (deployConfigFile hf ts now root srcRel target fs).fs = fs1.setFile target f.content now ∧
      (deployConfigFile hf ts now root srcRel target fs).failLog = [] ∧
      pathDir target ∉ fs.mkdirFail := by
  by_cases c1 : fileExists fs (pathJoin root srcRel) = false
  · simp [deployConfigFile, c1] at hd
  by_cases c2 : pathDir target ∈ fs.mkdirFail
  · simp [deployConfigFile, c1, c2] at hd
  by_cases c3 : fileExists fs target = true
  · by_cases c4 : (fileHash hf fs (pathJoin root srcRel)).isSome ∧
        (fileHash hf fs target).isSome ∧
        fileHash hf fs (pathJoin root srcRel) = fileHash hf fs target
    · simp [deployConfigFile, c1, c2, c3, c4] at hd
    · by_cases c5 : (copyFile (copyFile fs target (target ++ ".bak." ++ ts) now).1
          (pathJoin root srcRel) target now).2 = true
      · obtain ⟨f, hlf, _, _, hset⟩ := copyFile_spec _ _ _ _ c5
        refine ⟨(copyFile fs target (target ++ ".bak." ++ ts) now).1, f, hlf,
          (copyFile_oracle fs target _ now).1,
          (copyFile_oracle fs target _ now).2.1,
          (copyFile_oracle fs target _ now).2.2.1,
          (copyFile_oracle fs target _ now).2.2.2, ?_, ?_, c2⟩
        · simp [deployConfigFile, c1, c2, c3, c4, c5, hset]
        · simp [deployConfigFile, c1, c2, c3, c4, c5]
      · simp [deployConfigFile, c1, c2, c3, c4, c5] at hd
  · by_cases c5 : (copyFile fs (pathJoin root srcRel) target now).2 = true
    · obtain ⟨f, hlf, _, _, hset⟩ := copyFile_spec _ _ _ _ c5
      exact ⟨fs, f, hlf, rfl, rfl, rfl, rfl,
        by simp [deployConfigFile, c1, c2, c3, c5, hset],
        by simp [deployConfigFile, c1, c2, c3, c5], c2⟩
    · simp [deployConfigFile, c1, c2, c3, c5] at hd

/-- C2: for every call to deployConfigFile that succeeds (reports
Deployed, appending nothing to the failure log), the fingerprint of the
target file afterwards equals the fingerprint of the source file. -/
theorem deploy_fingerprint_after (hf : String → String) (ts : String) (now : Nat)
    (root srcRel target : String) (fs : FileSys)
    (hd : (deployConfigFile hf ts now root srcRel target fs).outcome = DeployOutcome.deployed) :
    contentHash hf (deployConfigFile hf ts now root srcRel target fs).fs target
      = contentHash hf (deployConfigFile hf ts now root srcRel target fs).fs (pathJoin root srcRel) ∧
    (contentHash hf (deployConfigFile hf ts now root srcRel target fs).fs target).isSome = true ∧
    (deployConfigFile hf ts now root srcRel target fs).failLog = [] := by
  obtain ⟨fs1, f, hlf, _, _, _, _, hfs, hlog, _⟩ :=
    deploy_deployed_shape hf ts now root srcRel target fs hd
  rw [hfs]
  obtain ⟨h1, h2⟩ := contentHash_setFile_of_lookup hf fs1 (pathJoin root srcRel) target f now hlf
  exact ⟨h1, h2, hlog⟩

theorem deploy_fingerprint_after_witness :
    (deployConfigFile (fun s => s) "TS" 1 "r" "a" "t"
        ⟨[("r\\a", ⟨"X", 0⟩)], [], [], [], []⟩).outcome = DeployOutcome.deployed ∧
    (contentHash (fun s => s) (deployConfigFile (fun s => s) "TS" 1 "r" "a" "t"
        ⟨[("r\\a", ⟨"X", 0⟩)], [], [], [], []⟩).fs "t"
      = contentHash (fun s => s) (deployConfigFile (fun s => s) "TS" 1 "r" "a" "t"
        ⟨[("r\\a", ⟨"X", 0⟩)], [], [], [], []⟩).fs (pathJoin "r" "a") ∧
    (contentHash (fun s => s) (deployConfigFile (fun s => s) "TS" 1 "r" "a" "t"
        ⟨[("r\\a", ⟨"X", 0⟩)], [], [], [], []⟩).fs "t").isSome = true ∧
    (deployConfigFile (fun s => s) "TS" 1 "r" "a" "t"
        ⟨[("r\\a", ⟨"X", 0⟩)], [], [], [], []⟩).failLog = []) :=
  ⟨by decide, deploy_fingerprint_after (fun s => s) "TS" 1 "r" "a" "t" _ (by decide)⟩

/-- C4: deployConfigFile is idempotent. If a deploy reported Deployed,
then a second call with the same source and target on the resulting
filesystem — with no intervening change to either file, in particular
both fingerprint reads succeeding — reports UpToDate, makes no backup,
appends nothing to the failure log, and leaves the filesystem exactly
as it was. -/
theorem deploy_idempotent (hf : String → String) (ts ts2 : String) (now now2 : Nat)
    (root srcRel target : String) (fs : FileSys)
    (hd : (deployConfigFile hf ts now root srcRel target fs).outcome = DeployOutcome.deployed)
    (hh1 : pathJoin root srcRel ∉ fs.hashFail)
    (hh2 : target ∉ fs.hashFail) :
    deployConfigFile hf ts2 now2 root srcRel target
        (deployConfigFile hf ts now root srcRel target fs).fs
      = ⟨(deployConfigFile hf ts now root srcRel target fs).fs,
          DeployOutcome.upToDate, [], false⟩ := by
  obtain ⟨fs1, f, hlf, hh, _, _, hm, hfs, _, hmk⟩ :=
    deploy_deployed_shape hf ts now root srcRel target fs hd
  rw [hfs]
  have hseto := setFile_oracle fs1 target f.content now
  have hsp : (fs1.setFile target f.content now).lookupFile (pathJoin root srcRel)
        = some ⟨f.content, now⟩ ∨
      (fs1.setFile target f.content now).lookupFile (pathJoin root srcRel) = some f := by
    by_cases h : pathJoin root srcRel = target
    · rw [h, lookupFile_setFile_self]
      exact Or.inl rfl
    · rw [lookupFile_setFile_other _ _ _ _ _ h, hlf]
      exact Or.inr rfl
  have hnot1 : pathJoin root srcRel ∉ (fs1.setFile target f.content now).hashFail := by
    rw [hseto.1, hh]
    exact hh1
  have hnot2 : target ∉ (fs1.setFile target f.content now).hashFail := by
    rw [hseto.1, hh]
    exact hh2
  have hHs : fileHash hf (fs1.setFile target f.content now) (pathJoin root srcRel)
      = some (hf f.content) := by
    rcases hsp with h | h <;> simp [fileHash, h, hnot1]
  have hHt : fileHash hf (fs1.setFile target f.content now) target = some (hf f.content) := by
    simp [fileHash, lookupFile_setFile_self, hnot2]
  have hExs : fileExists (fs1.setFile target f.content now) (pathJoin root srcRel) = true := by
    rcases hsp with h | h <;> simp [fileExists, h]
  have hExt : fileExists (fs1.setFile target f.content now) target = true := by
    simp [fileExists, lookupFile_setFile_self]
  have hmk' : pathDir target ∉ (fs1.setFile target f.content now).mkdirFail := by
    rw [hseto.2.2.2, hm]
    exact hmk
  have hc4 : (fileHash hf (fs1.setFile target f.content now) (pathJoin root srcRel)).isSome ∧
      (fileHash hf (fs1.setFile target f.content now) target).isSome ∧
      fileHash hf (fs1.setFile target f.content now) (pathJoin root srcRel)
        = fileHash hf (fs1.setFile target f.content now) target := by
    rw [hHs, hHt]
    exact ⟨rfl, rfl, rfl⟩
  simp [deployConfigFile, hExs, hmk', hExt, hc4]

theorem deploy_idempotent_witness :
    (deployConfigFile (fun s => s) "TS" 1 "r" "a" "t"
        ⟨[("r\\a", ⟨"X", 0⟩)], [], [], [], []⟩).outcome = DeployOutcome.deployed ∧
    "r\\a" ∉ ([] : List String) ∧ "t" ∉ ([] : List String) ∧
    deployConfigFile (fun s => s) "TS2" 2 "r" "a" "t"
        (deployConfigFile (fun s => s) "TS" 1 "r" "a" "t"
          ⟨[("r\\a", ⟨"X", 0⟩)], [], [], [], []⟩).fs
      = ⟨(deployConfigFile (fun s => s) "TS" 1 "r" "a" "t"
          ⟨[("r\\a", ⟨"X", 0⟩)], [], [], [], []⟩).fs, DeployOutcome.upToDate, [], false⟩ :=
  ⟨by decide, by decide, by decide,
    deploy_idempotent (fun s => s) "TS" "TS2" 1 2 "r" "a" "t" _ (by decide) (by decide) (by decide)⟩

/-- C1 (amended): with an existing source file, when both fingerprint
computations succeed and the backup copy itself can succeed (target
readable, backup path writable, directory creation fine), a backup file
is created if and only if a file existed at the target path before the
call and its fingerprint differed from the source's. -/
theorem deploy_backup_iff (hf : String → String) (ts : String) (now : Nat)
    (root srcRel target : String) (fs : FileSys)
    (hsrc : fileExists fs (pathJoin root srcRel) = true)
    (hmk : pathDir target ∉ fs.mkdirFail)
    (hh1 : pathJoin root srcRel ∉ fs.hashFail)
    (hh2 : target ∉ fs.hashFail)
    (hrd : target ∉ fs.readFail)
    (hwr : target ++ ".bak." ++ ts ∉ fs.createFail) :
    ((deployConfigFile hf ts now root srcRel target fs).backupMade = true
      ↔ (fileExists fs target = true ∧
          contentHash hf fs (pathJoin root srcRel) ≠ contentHash hf fs target)) := by
  cases hlsp : fs.lookupFile (pathJoin root srcRel) with
  | none => simp [fileExists, hlsp] at hsrc
  | some fsrc =>
    by_cases c3 : fileExists fs target = true
    · cases hltg : fs.lookupFile target with
      | none => simp [fileExists, hltg] at c3
      | some ftgt =>
        by_cases heq : hf fsrc.content = hf ftgt.content
        · have hc4 : (fileHash hf fs (pathJoin root srcRel)).isSome ∧
              (fileHash hf fs target).isSome ∧
              fileHash hf fs (pathJoin root srcRel) = fileHash hf fs target := by
            simp [fileHash, hlsp, hltg, hh1, hh2, heq]
          simp [deployConfigFile, hsrc, hmk, c3, hc4, contentHash, hlsp, hltg, heq]
        · have hc4 : ¬((fileHash hf fs (pathJoin root srcRel)).isSome ∧
              (fileHash hf fs target).isSome ∧
              fileHash hf fs (pathJoin root srcRel) = fileHash hf fs target) := by
            simp [fileHash, hlsp, hltg, hh1, hh2, heq]
          have hbk := copyFile_succeeds fs target (target ++ ".bak." ++ ts) now ftgt hltg hrd hwr
          simp [deployConfigFile, hsrc, hmk, c3, hc4, hbk,
            apply_ite DeployResult.backupMade, contentHash, hlsp, hltg, heq]
    · simp [deployConfigFile, hsrc, hmk, c3, apply_ite DeployResult.backupMade]

/-- C1, counterexample to the claim as stated: the source exists, a file
exists at the target, the fingerprints differ — yet no backup file is
created, because the ignored backup copy failed (the backup path is not
writable) while the target was still overwritten (outcome Deployed). -/
theorem deploy_backup_iff_cex :
    fileExists ⟨[("r\\a", ⟨"X", 0⟩), ("t", ⟨"Y", 0⟩)], [], [], ["t.bak.TS"], []⟩ "t" = true ∧
    contentHash (fun s => s) ⟨[("r\\a", ⟨"X", 0⟩), ("t", ⟨"Y", 0⟩)], [], [], ["t.bak.TS"], []⟩
        (pathJoin "r" "a")
      ≠ contentHash (fun s => s) ⟨[("r\\a", ⟨"X", 0⟩), ("t", ⟨"Y", 0⟩)], [], [], ["t.bak.TS"], []⟩ "t" ∧
    (deployConfigFile (fun s => s) "TS" 1 "r" "a" "t"
        ⟨[("r\\a", ⟨"X", 0⟩), ("t", ⟨"Y", 0⟩)], [], [], ["t.bak.TS"], []⟩).backupMade = false ∧
    fileExists (deployConfigFile (fun s => s) "TS" 1 "r" "a" "t"
        ⟨[("r\\a", ⟨"X", 0⟩), ("t", ⟨"Y", 0⟩)], [], [], ["t.bak.TS"], []⟩).fs "t.bak.TS" = false ∧
    (deployConfigFile (fun s => s) "TS" 1 "r" "a" "t"
        ⟨[("r\\a", ⟨"X", 0⟩), ("t", ⟨"Y", 0⟩)], [], [], ["t.bak.TS"], []⟩).outcome
      = DeployOutcome.deployed := by
  decide

theorem deploy_backup_iff_witness :
    fileExists ⟨[("r\\a", ⟨"X", 0⟩), ("t", ⟨"Y", 0⟩)], [], [], [], []⟩ (pathJoin "r" "a") = true ∧
    ((deployConfigFile (fun s => s) "TS" 1 "r" "a" "t"
        ⟨[("r\\a", ⟨"X", 0⟩), ("t", ⟨"Y", 0⟩)], [], [], [], []⟩).backupMade = true
      ↔ (fileExists ⟨[("r\\a", ⟨"X", 0⟩), ("t", ⟨"Y", 0⟩)], [], [], [], []⟩ "t" = true ∧
          contentHash (fun s => s) ⟨[("r\\a", ⟨"X", 0⟩), ("t", ⟨"Y", 0⟩)], [], [], [], []⟩
              (pathJoin "r" "a")
            ≠ contentHash (fun s => s)
              ⟨[("r\\a", ⟨"X", 0⟩), ("t", ⟨"Y", 0⟩)], [], [], [], []⟩ "t")) :=
  ⟨by decide, deploy_backup_iff (fun s => s) "TS" 1 "r" "a" "t" _
    (by decide) (by decide) (by decide) (by decide) (by decide) (by decide)⟩

/-- C9: when the target exists and is stale, a failing backup copy is
silently ignored — if the final copy succeeds the call still reports
Deployed, appends nothing to the failure log, and no backup was made. -/
theorem deploy_backup_fail_ignored (hf : String → String) (ts : String) (now : Nat)
    (root srcRel target : String) (fs : FileSys)
    (hsrc : fileExists fs (pathJoin root srcRel) = true)
    (hmk : pathDir target ∉ fs.mkdirFail)
    (htg : fileExists fs target = true)
    (hne : ¬((fileHash hf fs (pathJoin root srcRel)).isSome ∧
        (fileHash hf fs target).isSome ∧
        fileHash hf fs (pathJoin root srcRel) = fileHash hf fs target))
    (hbk : (copyFile fs target (target ++ ".bak." ++ ts) now).2 = false)
    (hcp : (copyFile (copyFile fs target (target ++ ".bak." ++ ts) now).1
        (pathJoin root srcRel) target now).2 = true) :
    (deployConfigFile hf ts now root srcRel target fs).outcome = DeployOutcome.deployed ∧
    (deployConfigFile hf ts now root srcRel target fs).failLog = [] ∧
    (deployConfigFile hf ts now root srcRel target fs).backupMade = false := by
  simp [deployConfigFile, hsrc, hmk, htg, hne, hcp, hbk]

theorem deploy_backup_fail_ignored_witness :
    fileExists ⟨[("r\\a", ⟨"X", 0⟩), ("t", ⟨"Y", 0⟩)], [], [], ["t.bak.TS"], []⟩
        (pathJoin "r" "a") = true ∧
    (copyFile ⟨[("r\\a", ⟨"X", 0⟩), ("t", ⟨"Y", 0⟩)], [], [], ["t.bak.TS"], []⟩
        "t" ("t" ++ ".bak." ++ "TS") 1).2 = false ∧
    ((deployConfigFile (fun s => s) "TS" 1 "r" "a" "t"
        ⟨[("r\\a", ⟨"X", 0⟩), ("t", ⟨"Y", 0⟩)], [], [], ["t.bak.TS"], []⟩).outcome
        = DeployOutcome.deployed ∧
      (deployConfigFile (fun s => s) "TS" 1 "r" "a" "t"
        ⟨[("r\\a", ⟨"X", 0⟩), ("t", ⟨"Y", 0⟩)], [], [], ["t.bak.TS"], []⟩).failLog = [] ∧
      (deployConfigFile (fun s => s) "TS" 1 "r" "a" "t"
        ⟨[("r\\a", ⟨"X", 0⟩), ("t", ⟨"Y", 0⟩)], [], [], ["t.bak.TS"], []⟩).backupMade = false) :=
  ⟨by decide, by decide,
    deploy_backup_fail_ignored (fun s => s) "TS" 1 "r" "a" "t" _
      (by decide) (by decide) (by decide) (by decide) (by decide) (by decide)⟩

/-- C10: when the target exists but one of the fingerprint computations
fails, deployConfigFile treats the files as differing: provided the
copies themselves succeed it backs the target up, overwrites it with
the source, reports Deployed and records no failure. -/
theorem deploy_hash_fail_redeploys (hf : String → String) (ts : String) (now : Nat)
    (root srcRel target : String) (fs : FileSys)
    (hsrc : fileExists fs (pathJoin root srcRel) = true)
    (hmk : pathDir target ∉ fs.mkdirFail)
    (htg : fileExists fs target = true)
    (hfl : fileHash hf fs (pathJoin root srcRel) = none ∨ fileHash hf fs target = none)
    (hr1 : target ∉ fs.readFail)
    (hr2 : pathJoin root srcRel ∉ fs.readFail)
    (hw1 : target ++ ".bak." ++ ts ∉ fs.createFail)
    (hw2 : target ∉ fs.createFail) :
    (deployConfigFile hf ts now root srcRel target fs).outcome = DeployOutcome.deployed ∧
    (deployConfigFile hf ts now root srcRel target fs).backupMade = true ∧
    (deployConfigFile hf ts now root srcRel target fs).failLog = [] ∧
    contentHash hf (deployConfigFile hf ts now root srcRel target fs).fs target
      = contentHash hf (deployConfigFile hf ts now root srcRel target fs).fs
          (pathJoin root srcRel) := by
  have hne : ¬((fileHash hf fs (pathJoin root srcRel)).isSome ∧
      (fileHash hf fs target).isSome ∧
      fileHash hf fs (pathJoin root srcRel) = fileHash hf fs target) := by
    rcases hfl with h | h <;> simp [h]
  cases hltg : fs.lookupFile target with
  | none => simp [fileExists, hltg] at htg
  | some ftgt =>
    have hbk := copyFile_succeeds fs target (target ++ ".bak." ++ ts) now ftgt hltg hr1 hw1
    have hex : ∃ f1, (fs.setFile (target ++ ".bak." ++ ts) ftgt.content now).lookupFile
        (pathJoin root srcRel) = some f1 := by
      by_cases h : pathJoin root srcRel = target ++ ".bak." ++ ts
      · rw [h, lookupFile_setFile_self]
        exact ⟨_, rfl⟩
      · rw [lookupFile_setFile_other _ _ _ _ _ h]
        cases hlsp : fs.lookupFile (pathJoin root srcRel) with
        | none => simp [fileExists, hlsp] at hsrc
        | some fsrc => exact ⟨fsrc, rfl⟩
    obtain ⟨f1, hlf1⟩ := hex
    have hr2' : pathJoin root srcRel
        ∉ (fs.setFile (target ++ ".bak." ++ ts) ftgt.content now).readFail := by
      rw [(setFile_oracle fs (target ++ ".bak." ++ ts) ftgt.content now).2.1]
      exact hr2
    have hw2' : target ∉ (fs.setFile (target ++ ".bak." ++ ts) ftgt.content now).createFail := by
      rw [(setFile_oracle fs (target ++ ".bak." ++ ts) ftgt.content now).2.2.1]
      exact hw2
    have hcp := copyFile_succeeds (fs.setFile (target ++ ".bak." ++ ts) ftgt.content now)
      (pathJoin root srcRel) target now f1 hlf1 hr2' hw2'
    have hch := contentHash_setFile_of_lookup hf
      (fs.setFile (target ++ ".bak." ++ ts) ftgt.content now)
      (pathJoin root srcRel) target f1 now hlf1
    refine ⟨?_, ?_, ?_, ?_⟩ <;>
      simp [deployConfigFile, hsrc, hmk, htg, hne, hbk, hcp, hch.1]

theorem deploy_hash_fail_redeploys_witness :
    fileHash (fun s => s) ⟨[("r\\a", ⟨"X", 0⟩), ("t", ⟨"Y", 0⟩)], ["r\\a"], [], [], []⟩
        (pathJoin "r" "a") = none ∧
    ((deployConfigFile (fun s => s) "TS" 1 "r" "a" "t"
        ⟨[("r\\a", ⟨"X", 0⟩), ("t", ⟨"Y", 0⟩)], ["r\\a"], [], [], []⟩).outcome
        = DeployOutcome.deployed ∧
      (deployConfigFile (fun s => s) "TS" 1 "r" "a" "t"
        ⟨[("r\\a", ⟨"X", 0⟩), ("t", ⟨"Y", 0⟩)], ["r\\a"], [], [], []⟩).backupMade = true ∧
      (deployConfigFile (fun s => s) "TS" 1 "r" "a" "t"
        ⟨[("r\\a", ⟨"X", 0⟩), ("t", ⟨"Y", 0⟩)], ["r\\a"], [], [], []⟩).failLog = [] ∧
      contentHash (fun s => s) (deployConfigFile (fun s => s) "TS" 1 "r" "a" "t"
          ⟨[("r\\a", ⟨"X", 0⟩), ("t", ⟨"Y", 0⟩)], ["r\\a"], [], [], []⟩).fs "t"
        = contentHash (fun s => s) (deployConfigFile (fun s => s) "TS" 1 "r" "a" "t"
          ⟨[("r\\a", ⟨"X", 0⟩), ("t", ⟨"Y", 0⟩)], ["r\\a"], [], [], []⟩).fs (pathJoin "r" "a")) :=
  ⟨by decide,
    deploy_hash_fail_redeploys (fun s => s) "TS" 1 "r" "a" "t" _
      (by decide) (by decide) (by decide) (Or.inl (by decide))
      (by decide) (by decide) (by decide) (by decide)⟩

/-! ### Modification-time independence (noninterference) -/

/-- The content view of an association list: keys and byte contents,
modification times erased. -/
def filesContents (l : List (String × FileEntry)) : List (String × String) :=
  l.map (fun pf => (pf.1, pf.2.content))

/-- Two filesystem states that agree on everything the deploy logic can
observe: per-path contents and the fault oracle — but possibly not on
modification times. -/
def eqc (a b : FileSys) : Prop :=
  filesContents a.files = filesContents b.files ∧
  a.hashFail = b.hashFail ∧ a.readFail = b.readFail ∧
  a.createFail = b.createFail ∧ a.mkdirFail = b.mkdirFail

theorem findFile_contents (p : String) : ∀ l1 l2 : List (String × FileEntry),
    filesContents l1 = filesContents l2 →
    (findFile l1 p).map FileEntry.content = (findFile l2 p).map FileEntry.content := by
  intro l1
  induction l1 with
  | nil =>
    intro l2 hc
    cases l2 with
    | nil => rfl
    | cons b bs => simp [filesContents] at hc
  | cons a as ih =>
    intro l2 hc
    cases l2 with
    | nil => simp [filesContents] at hc
    | cons b bs =>
      obtain ⟨a1, a2⟩ := a
      obtain ⟨b1, b2⟩ := b
      simp only [filesContents, List.map_cons, List.cons.injEq, Prod.mk.injEq] at hc
      obtain ⟨⟨hk, hv⟩, hrest⟩ := hc
      subst hk
      by_cases hp : p = a1
      · simp [findFile, hp, hv]
      · simp only [findFile, hp, if_false]
        exact ih bs hrest

theorem eqc_lookup (a b : FileSys) (h : eqc a b) (p : String) :
    (a.lookupFile p).map FileEntry.content = (b.lookupFile p).map FileEntry.content :=
  findFile_contents p a.files b.files h.1

theorem eqc_fileExists (a b : FileSys) (h : eqc a b) (p : String) :
    fileExists a p = fileExists b p := by
  have hl := eqc_lookup a b h p
  unfold fileExists
  cases ha : a.lookupFile p <;> cases hb : b.lookupFile p <;>
    rw [ha, hb] at hl <;> simp_all

theorem eqc_fileHash (hf : String → String) (a b : FileSys) (h : eqc a b) (p : String) :
    fileHash hf a p = fileHash hf b p := by
  have hl := eqc_lookup a b h p
  unfold fileHash
  cases ha : a.lookupFile p with
  | none =>
    cases hb : b.lookupFile p with
    | none => rfl
    | some g => rw [ha, hb] at hl; simp at hl
  | some f =>
    cases hb : b.lookupFile p with
    | none => rw [ha, hb] at hl; simp at hl
    | some g =>
      rw [ha, hb] at hl
      simp only [Option.map_some'] at hl
      simp only [Option.some.injEq] at hl
      rw [h.2.1]
      show (if p ∈ b.hashFail then none else some (hf f.content))
          = (if p ∈ b.hashFail then none else some (hf g.content))
      rw [hl]

theorem putFile_contents (p c : String) (n n' : Nat) : ∀ l1 l2 : List (String × FileEntry),
    filesContents l1 = filesContents l2 →
    filesContents (putFile l1 p ⟨c, n⟩) = filesContents (putFile l2 p ⟨c, n'⟩) := by
  intro l1
  induction l1 with
  | nil =>
    intro l2 hc
    cases l2 with
    | nil => simp [putFile, filesContents]
    | cons b bs => simp [filesContents] at hc
  | cons a as ih =>
    intro l2 hc
    cases l2 with
    | nil => simp [filesContents] at hc
    | cons b bs =>
      obtain ⟨a1, a2⟩ := a
      obtain ⟨b1, b2⟩ := b
      simp only [filesContents, List.map_cons, List.cons.injEq, Prod.mk.injEq] at hc
      obtain ⟨⟨hk, hv⟩, hrest⟩ := hc
      subst hk
      by_cases hp : p = a1
      · simp [putFile, hp, filesContents, hv]
        exact hrest
      · simp only [putFile, hp, if_false]
        simp [filesContents, hv]
        simpa [filesContents] using ih bs hrest

theorem eqc_setFile (a b : FileSys) (h : eqc a b) (p c : String) (n n' : Nat) :
    eqc (a.setFile p c n) (b.setFile p c n') :=
  ⟨putFile_contents p c n n' a.files b.files h.1, h.2.1, h.2.2.1, h.2.2.2.1, h.2.2.2.2⟩

theorem eqc_copyFile (a b : FileSys) (h : eqc a b) (src dst : String) (n n' : Nat) :
    (copyFile a src dst n).2 = (copyFile b src dst n').2 ∧
    eqc (copyFile a src dst n).1 (copyFile b src dst n').1 := by
  have hl := eqc_lookup a b h src
  unfold copyFile
  cases ha : a.lookupFile src with
  | none =>
    cases hb : b.lookupFile src with
    | none => exact ⟨rfl, h⟩
    | some g => rw [ha, hb] at hl; simp at hl
  | some f =>
    cases hb : b.lookupFile src with
    | none => rw [ha, hb] at hl; simp at hl
    | some g =>
      rw [ha, hb] at hl
      simp only [Option.map_some'] at hl
      simp only [Option.some.injEq] at hl
      rw [h.2.2.1, h.2.2.2.1]
      by_cases hr : src ∈ b.readFail
      · simp [hr]
        exact h
      · by_cases hw : dst ∈ b.createFail
        · simp [hr, hw]
          exact h
        · refine ⟨by simp [hr, hw], ?_⟩
          simp only [hr, hw, if_false]
          rw [← hl]
          exact eqc_setFile a b h dst f.content n n'

theorem eqc_deploy (hf : String → String) (ts : String) (n n' : Nat)
    (root srcRel target : String) (a b : FileSys) (h : eqc a b) :
    (deployConfigFile hf ts n root srcRel target a).outcome
      = (deployConfigFile hf ts n' root srcRel target b).outcome ∧
    (deployConfigFile hf ts n root srcRel target a).failLog
      = (deployConfigFile hf ts n' root srcRel target b).failLog ∧
    (deployConfigFile hf ts n root srcRel target a).backupMade
      = (deployConfigFile hf ts n' root srcRel target b).backupMade ∧
    eqc (deployConfigFile hf ts n root srcRel target a).fs
      (deployConfigFile hf ts n' root srcRel target b).fs := by
  have hsp := eqc_fileExists a b h (pathJoin root srcRel)
  have htg := eqc_fileExists a b h target
  have hhs := eqc_fileHash hf a b h (pathJoin root srcRel)
  have hht := eqc_fileHash hf a b h target
  have hmk : a.mkdirFail = b.mkdirFail := h.2.2.2.2
  have hcb := eqc_copyFile a b h target (target ++ ".bak." ++ ts) n n'
  have hcc := eqc_copyFile _ _ hcb.2 (pathJoin root srcRel) target n n'
  have hcf := eqc_copyFile a b h (pathJoin root srcRel) target n n'
  by_cases c1 : fileExists b (pathJoin root srcRel) = false
  · refine ⟨?_, ?_, ?_, ?_⟩ <;> simp [deployConfigFile, hsp, c1]
    exact h
  by_cases c2 : pathDir target ∈ b.mkdirFail
  · refine ⟨?_, ?_, ?_, ?_⟩ <;> simp [deployConfigFile, hsp, c1, hmk, c2]
    exact h
  by_cases c3 : fileExists b target = true
  · by_cases c4 : (fileHash hf b (pathJoin root srcRel)).isSome ∧
        (fileHash hf b target).isSome ∧
        fileHash hf b (pathJoin root srcRel) = fileHash hf b target
    · refine ⟨?_, ?_, ?_, ?_⟩ <;>
        simp [deployConfigFile, hsp, c1, hmk, c2, htg, c3, hhs, hht, c4]
      exact h
    · by_cases c5 : (copyFile (copyFile b target (target ++ ".bak." ++ ts) n').1
          (pathJoin root srcRel) target n').2 = true
      · refine ⟨?_, ?_, ?_, ?_⟩ <;>
          simp [deployConfigFile, hsp, c1, hmk, c2, htg, c3, hhs, hht, c4, hcc.1, c5, hcb.1]
        exact hcc.2
      · refine ⟨?_, ?_, ?_, ?_⟩ <;>
          simp [deployConfigFile, hsp, c1, hmk, c2, htg, c3, hhs, hht, c4, hcc.1, c5, hcb.1]
        exact hcc.2
  · by_cases c5 : (copyFile b (pathJoin root srcRel) target n').2 = true
    · refine ⟨?_, ?_, ?_, ?_⟩ <;>
        simp [deployConfigFile, hsp, c1, hmk, c2, htg, c3, hcf.1, c5]
      exact hcf.2
    · refine ⟨?_, ?_, ?_, ?_⟩ <;>
        simp [deployConfigFile, hsp, c1, hmk, c2, htg, c3, hcf.1, c5]
      exact hcf.2

/-- Change every file's modification time (but nothing else). -/
def touchAll (g : String → Nat) (fs : FileSys) : FileSys :=
  { fs with files := fs.files.map (fun pf => (pf.1, ⟨pf.2.content, g pf.1⟩)) }

theorem eqc_touchAll (g : String → Nat) (fs : FileSys) : eqc fs (touchAll g fs) := by
  refine ⟨?_, rfl, rfl, rfl, rfl⟩
  simp only [touchAll, filesContents, List.map_map]
  rfl

/-- C8: the deploy decision and its effect depend only on byte contents,
never on modification times. Re-timestamping every file (and using a
different write clock) changes neither the reported outcome, nor the
failure-log entries, nor whether a backup was made, nor the resulting
target content. -/
theorem deploy_mtime_independent (hf : String → String) (ts : String)
    (now now2 : Nat) (g : String → Nat) (root srcRel target : String) (fs : FileSys) :
    (deployConfigFile hf ts now root srcRel target fs).outcome
      = (deployConfigFile hf ts now2 root srcRel target (touchAll g fs)).outcome ∧
    (deployConfigFile hf ts now root srcRel target fs).failLog
      = (deployConfigFile hf ts now2 root srcRel target (touchAll g fs)).failLog ∧
    (deployConfigFile hf ts now root srcRel target fs).backupMade
      = (deployConfigFile hf ts now2 root srcRel target (touchAll g fs)).backupMade ∧
    ((deployConfigFile hf ts now root srcRel target fs).fs.lookupFile target).map
        FileEntry.content
      = ((deployConfigFile hf ts now2 root srcRel target (touchAll g fs)).fs.lookupFile
          target).map FileEntry.content := by
  have hd := eqc_deploy hf ts now now2 root srcRel target fs (touchAll g fs)
    (eqc_touchAll g fs)
  exact ⟨hd.1, hd.2.1, hd.2.2.1, eqc_lookup _ _ hd.2.2.2 target⟩

/-- C7: extractVersion on "1.2.3 (abcdef)" yields "1.2.3", on a
digit-free input returns it unchanged, and in general returns the first
maximal run of digits-and-dots starting at the first digit. -/
theorem extractVersion_spec :
    extractVersion "1.2.3 (abcdef)" = "1.2.3" ∧
    extractVersion "no digits here" = "no digits here" ∧
    ∀ s : String, extractVersion s = firstVersionRun s :=
  ⟨by decide, by decide, fun s => extractVersion_eq_firstVersionRun s⟩

/-- C6: for both backends, when the pre-install listing output contains
the package identifier as a substring, the install reports Skipped and
no install command (first argument "install") is among the commands
invoked. -/
theorem install_listing_skip (run : Cmd → String × Bool) (runPass : Cmd → Bool)
    (pid dn pkg bucket : String)
    (h1 : strContains (run (wingetListCmd pid)).1 pid = true)
    (h2 : strContains (run scoopListCmd).1 pkg = true) :
    (installWingetPackage run runPass pid dn).outcome = InstallOutcome.skipped ∧
    (installScoopPackage run runPass pkg bucket).outcome = InstallOutcome.skipped ∧
    (∀ c ∈ (installWingetPackage run runPass pid dn).cmds, c.args.head? ≠ some "install") ∧
    (∀ c ∈ (installScoopPackage run runPass pkg bucket).cmds, c.args.head? ≠ some "install") := by
  have hw : installWingetPackage run runPass pid dn
      = ⟨InstallOutcome.skipped, [], [wingetListCmd pid]⟩ := by
    simp only [installWingetPackage]
    rw [if_pos h1]
  have hs : installScoopPackage run runPass pkg bucket
      = ⟨InstallOutcome.skipped, [], [scoopListCmd]⟩ := by
    simp only [installScoopPackage]
    rw [if_pos h2]
  rw [hw, hs]
  refine ⟨rfl, rfl, ?_, ?_⟩ <;> simp [wingetListCmd, scoopListCmd]

theorem install_listing_skip_witness :
    strContains ((fun _ : Cmd => ("PKG", true)) (wingetListCmd "PKG")).1 "PKG" = true ∧
    strContains ((fun _ : Cmd => ("PKG", true)) scoopListCmd).1 "PKG" = true ∧
    ((installWingetPackage (fun _ => ("PKG", true)) (fun _ => true) "PKG" "Pkg").outcome
        = InstallOutcome.skipped ∧
      (installScoopPackage (fun _ => ("PKG", true)) (fun _ => true) "PKG" "b").outcome
        = InstallOutcome.skipped ∧
      (∀ c ∈ (installWingetPackage (fun _ => ("PKG", true)) (fun _ => true) "PKG" "Pkg").cmds,
        c.args.head? ≠ some "install") ∧
      (∀ c ∈ (installScoopPackage (fun _ => ("PKG", true)) (fun _ => true) "PKG" "b").cmds,
        c.args.head? ≠ some "install")) :=
  ⟨by decide, by decide,
    install_listing_skip (fun _ => ("PKG", true)) (fun _ => true) "PKG" "Pkg" "PKG" "b"
      (by decide) (by decide)⟩

/-- C3 (amended): the process exit code is 0 exactly when all three
preflight checks pass — the executable path resolves, winget is on the
search path, and the connectivity probe succeeds — regardless of how
many step failures accumulate; it is 1 exactly when one of those three
preflight checks fails. -/
theorem mainRun_exit_code (env : GoEnv) :
    (mainRun env).1
      = if env.exePathOk && env.cmdExists "winget" && env.networkOk then 0 else 1 := by
  unfold mainRun
  cases he : env.exePathOk <;> cases hw : env.cmdExists "winget" <;>
    cases hn : env.networkOk <;> simp [he, hw, hn]

/-- C3, counterexample to the claim as stated: a run where winget is
resolvable and the network probe would succeed still exits with code 1,
because `os.Executable` fails — a third exit-1 case the claim omits. -/
theorem mainRun_exit_code_cex :
    (GoEnv.mk false true (fun _ => true) (fun _ => ("", true)) (fun _ => true)
        ⟨[], [], [], [], []⟩ "L" "U" "A" "R" "TS" 0 (fun s => s)).cmdExists "winget" = true ∧
    (GoEnv.mk false true (fun _ => true) (fun _ => ("", true)) (fun _ => true)
        ⟨[], [], [], [], []⟩ "L" "U" "A" "R" "TS" 0 (fun s => s)).networkOk = true ∧
    (mainRun (GoEnv.mk false true (fun _ => true) (fun _ => ("", true)) (fun _ => true)
        ⟨[], [], [], [], []⟩ "L" "U" "A" "R" "TS" 0 (fun s => s))).1 = 1 := by
  exact ⟨rfl, rfl, rfl⟩

theorem runStep_trace (n : Nat) (body : FileSys → FileSys × List String) (w : World) :
    (runStep n body w).trace = w.trace ++ [n] := rfl

/-- C5: once preflight passes, every step of the pipeline executes, in
order, no matter what any step's body does — a failing step appends its
messages to the failure log (that is what `runStep` does with a body's
messages) and never prevents the later steps; the run always completes
with exit code 0. -/
theorem pipeline_runs_all_steps (env : GoEnv)
    (h1 : env.exePathOk = true) (h2 : env.cmdExists "winget" = true)
    (h3 : env.networkOk = true) :
    (mainRun env).2.trace = [1, 2, 3, 4, 5, 6, 7, 8, 9, 10, 11, 12, 13, 14, 15] ∧
    (mainRun env).1 = 0 ∧
    ∀ (n : Nat) (body : FileSys → FileSys × List String) (w : World),
      (runStep n body w).failures = w.failures ++ (body w.fs).2 := by
  refine ⟨?_, ?_, fun n body w => rfl⟩ <;>
    simp [mainRun, h1, h2, h3, pipeline, runStep_trace]

theorem pipeline_runs_all_steps_witness :
    (GoEnv.mk true true (fun _ => true) (fun _ => ("", true)) (fun _ => true)
        ⟨[], [], [], [], []⟩ "L" "U" "A" "R" "TS" 0 (fun s => s)).exePathOk = true ∧
    (GoEnv.mk true true (fun _ => true) (fun _ => ("", true)) (fun _ => true)
        ⟨[], [], [], [], []⟩ "L" "U" "A" "R" "TS" 0 (fun s => s)).cmdExists "winget" = true ∧
    (GoEnv.mk true true (fun _ => true) (fun _ => ("", true)) (fun _ => true)
        ⟨[], [], [], [], []⟩ "L" "U" "A" "R" "TS" 0 (fun s => s)).networkOk = true ∧
    ((mainRun (GoEnv.mk true true (fun _ => true) (fun _ => ("", true)) (fun _ => true)
        ⟨[], [], [], [], []⟩ "L" "U" "A" "R" "TS" 0 (fun s => s))).2.trace
        = [1, 2, 3, 4, 5, 6, 7, 8, 9, 10, 11, 12, 13, 14, 15] ∧
      (mainRun (GoEnv.mk true true (fun _ => true) (fun _ => ("", true)) (fun _ => true)
        ⟨[], [], [], [], []⟩ "L" "U" "A" "R" "TS" 0 (fun s => s))).1 = 0 ∧
      ∀ (n : Nat) (body : FileSys → FileSys × List String) (w : World),
        (runStep n body w).failures = w.failures ++ (body w.fs).2) :=
  ⟨rfl, rfl, rfl, pipeline_runs_all_steps _ rfl rfl rfl⟩
